import Mathlib

/-!
Verification of the YouTube research-automation pipeline
(`src/mastra/tools/youtubeScraper.ts`, `src/mastra/tools/simpleVideoTracker.ts`,
`src/mastra/tools/dataStorage.ts`, `src/mastra/inngest/index.ts`).

URLs and texts are modelled as `List Char`; machine collaborators
(yt-dlp download, Whisper transcription, browser DOM reads, the
Postgres tables) are modelled as explicit inputs.  Fallible
JavaScript code (code that can `throw`) is modelled with `Except`.
-/

namespace YtAuto

/-- A URL, as a list of characters. -/
abbrev Url := List Char

/-! ## Video-id extraction (the two regexes)

`simpleVideoTracker.ts` (`extractVideoId`, lines 52-66) matches the patterns
`(?:youtube\.com\/watch\?v=|youtu\.be\/|youtube\.com\/embed\/)([^&\n?#]+)` and
`youtube\.com\/v\/([^&\n?#]+)`.

`youtubeScraper.ts` (lines 354, 564, 588) matches the stricter pattern
`(?:youtube\.com\/watch\?v=|youtu\.be\/)([a-zA-Z0-9_-]{11})`.

An unanchored JavaScript regex scans left to right; at each position the
alternatives are tried in order, and the first full match (alternative plus a
non-failing capture) wins.  `scanFor cap alts s` embeds this search, where
`cap` embeds the capturing group applied to the rest of the input. -/

/-- Characters allowed by the capture group `[^&\n?#]+` of the tracker regex. -/
def captureOk (c : Char) : Bool :=
  !(c == '&' || c == '\n' || c == '?' || c == '#')

/-- Characters of the class `[a-zA-Z0-9_-]` of the scraper regex. -/
def idChar (c : Char) : Bool :=
  c.isAlpha || c.isDigit || c == '_' || c == '-'

/-- Try the alternatives in order at one position: the alternative must be a
literal prefix of the remaining input and the capture must succeed on what
follows it. -/
def firstCapture (cap : List Char → Option (List Char)) :
    List (List Char) → List Char → Option (List Char)
  | [], _ => none
  | a :: rest, s =>
    if a.isPrefixOf s then
      match cap (s.drop a.length) with
      | some t => some t
      | none => firstCapture cap rest s
    else firstCapture cap rest s

/-- Scan the input left to right, trying the alternatives at each position
(unanchored JavaScript regex search). -/
def scanFor (cap : List Char → Option (List Char)) (alts : List (List Char)) :
    List Char → Option (List Char)
  | [] => firstCapture cap alts []
  | c :: cs =>
    match firstCapture cap alts (c :: cs) with
    | some t => some t
    | none => scanFor cap alts cs

/-- The capture group `([^&\n?#]+)`: the longest non-empty run of allowed
characters. -/
def plusCapture (s : List Char) : Option (List Char) :=
  let t := s.takeWhile captureOk
  if t.isEmpty then none else some t

/-- The capture group `([a-zA-Z0-9_-]{11})`: exactly eleven id characters. -/
def elevenCapture (s : List Char) : Option (List Char) :=
  let t := s.take 11
  if t.length = 11 && t.all idChar then some t else none

def watchAlt : List Char := "youtube.com/watch?v=".data

def shortAlt : List Char := "youtu.be/".data

def embedAlt : List Char := "youtube.com/embed/".data

def slashVAlt : List Char := "youtube.com/v/".data

/-- Alternatives of the tracker's first pattern, in order. -/
def pat1 : List (List Char) := [watchAlt, shortAlt, embedAlt]

/-- Alternatives of the tracker's second pattern. -/
def pat2 : List (List Char) := [slashVAlt]

/-- Alternatives of the scraper's pattern, in order. -/
def strictAlts : List (List Char) := [watchAlt, shortAlt]

/-- Function `extractVideoId` of `simpleVideoTracker.ts` lines 52-66: try the first
pattern, then the second; `none` models the thrown
`Invalid YouTube URL format` error. -/
def extractVideoId (url : Url) : Option (List Char) :=
  match scanFor plusCapture pat1 url with
  | some vid => some vid
  | none => scanFor plusCapture pat2 url

/-- The scraper's stricter extraction
`url.match(/(?:youtube\.com\/watch\?v=|youtu\.be\/)([a-zA-Z0-9_-]{11})/)`
used at `youtubeScraper.ts` lines 564 and 588. -/
def strictExtract (url : Url) : Option (List Char) :=
  scanFor elevenCapture strictAlts url

/-- A long-form URL for the video id `id`. -/
def longFormUrl (id : List Char) : Url :=
  "https://www.youtube.com/watch?v=".data ++ id

/-- A short-form URL for the video id `id`. -/
def shortFormUrl (id : List Char) : Url :=
  "https://youtu.be/".data ++ id

/-! ## The Duplicate Tracker (`simpleVideoTracker.ts`) -/

/-- Structure `VideoRecord` of `simpleVideoTracker.ts` lines 7-15.  `scrapedAt` is an
abstract timestamp. -/
structure VideoRecord where
  videoId : List Char
  url : Url
  title : Option (List Char)
  channelName : Option (List Char)
  scrapedAt : Nat
  isAnalyzed : Bool
  analysisFile : Option (List Char)
deriving DecidableEq, Repr

/-- The tracker's index: the `videos` array of the tracking file. -/
abbrev TrackerIndex := List VideoRecord

/-- Outcome of `checkDuplicates` for one URL (`simpleVideoTracker.ts`
lines 74-112).  `existsInIndex` models the `exists` field. -/
structure CheckItem where
  url : Url
  videoId : Option (List Char)
  existsInIndex : Bool
  shouldSkip : Bool
  error : Option (List Char)
deriving DecidableEq, Repr

/-- One iteration of the `checkDuplicates` loop: parse the URL, look the id up
in the index, or report a per-item error when parsing throws. -/
def checkItemFor (videos : TrackerIndex) (url : Url) : CheckItem :=
  match extractVideoId url with
  | some vid =>
    match videos.find? (fun v => v.videoId == vid) with
    | some _ =>
      { url := url, videoId := some vid, existsInIndex := true,
        shouldSkip := true, error := none }
    | none =>
      { url := url, videoId := some vid, existsInIndex := false,
        shouldSkip := false, error := none }
  | none =>
    { url := url, videoId := none, existsInIndex := false,
      shouldSkip := false, error := some "Invalid YouTube URL format".data }

/-- The `checkDuplicates` result list (`simpleVideoTracker.ts` lines 68-134). -/
def checkDuplicates (videos : TrackerIndex) (urls : List Url) : List CheckItem :=
  urls.map (checkItemFor videos)

/-- The `summary.newUrls` list: URLs neither known nor malformed. -/
def newUrls (videos : TrackerIndex) (urls : List Url) : List Url :=
  ((checkDuplicates videos urls).filter
    (fun r => !r.existsInIndex && r.error == none)).map (·.url)

/-- The `summary.duplicateUrls` list: URLs whose id is already in the index. -/
def duplicateUrls (videos : TrackerIndex) (urls : List Url) : List Url :=
  ((checkDuplicates videos urls).filter (·.existsInIndex)).map (·.url)

/-- The payload of a `track` call (`trackNewVideo` arguments plus the clock). -/
structure TrackInput where
  videoId : List Char
  url : Url
  title : Option (List Char)
  channelName : Option (List Char)
  now : Nat
deriving DecidableEq, Repr

/-- The fresh `videoRecord` literal built by `trackNewVideo` lines 156-163. -/
def mkRecord (inp : TrackInput) : VideoRecord :=
  { videoId := inp.videoId, url := inp.url, title := inp.title,
    channelName := inp.channelName, scrapedAt := inp.now,
    isAnalyzed := false, analysisFile := none }

/-- Function `trackNewVideo` lines 154-173: find the first record with the same id and
replace it in place (the object spread keeps only the old `analysisFile`,
every other field is overwritten), otherwise push the new record at the end. -/
def upsertRecord (newRec : VideoRecord) : TrackerIndex → TrackerIndex
  | [] => [newRec]
  | v :: vs =>
    if v.videoId == newRec.videoId then
      { newRec with analysisFile := v.analysisFile } :: vs
    else
      v :: upsertRecord newRec vs

/-- One `track` call on the index. -/
def trackStep (videos : TrackerIndex) (inp : TrackInput) : TrackerIndex :=
  upsertRecord (mkRecord inp) videos

/-! ## The Ingestion Coordinator's duplicate reconciliation
(`youTubeScrapeTool.execute`, `youtubeScraper.ts` lines 541-621)

The storage collaborator is modelled by the list of `videoId` values present
in the `videos` table (the `execute` code only selects that column). -/

/-- The `videoIdsToCheck` list (lines 562-567): strict extraction over the
file-tracker duplicates, dropping URLs the strict regex does not parse. -/
def videoIdsToCheck (dups : List Url) : List (List Char) :=
  dups.filterMap strictExtract

/-- The `existingVideoIds` set (lines 574-578): ids found in the `videos` table among
`videoIdsToCheck` (the `inArray` query). -/
def existingVideoIds (dbIds : List (List Char)) (dups : List Url) :
    List (List Char) :=
  dbIds.filter (fun i => (videoIdsToCheck dups).contains i)

/-- The `videosToReAdd` list (lines 587-591): duplicates whose strictly-extracted id is
missing from the database; URLs the strict regex rejects yield `null`, which
is falsy, so they are never re-added. -/
def videosToReAdd (dbIds : List (List Char)) (dups : List Url) : List Url :=
  dups.filter (fun url =>
    match strictExtract url with
    | some vid => !((existingVideoIds dbIds dups).contains vid)
    | none => false)

/-- The list `finalVideosToScrape` as computed by `execute` lines 547-599: start from
the tracker's new URLs and, when the tracker reported duplicates, append the
re-add list when it is non-empty. -/
def finalVideosToScrape (videos : TrackerIndex) (dbIds : List (List Char))
    (videoUrls : List Url) : List Url :=
  let newU := newUrls videos videoUrls
  let dups := duplicateUrls videos videoUrls
  if dups.length > 0 then
    let reAdd := videosToReAdd dbIds dups
    if reAdd.length > 0 then newU ++ reAdd else newU
  else newU

/-! ## The Transcript Resolver (`youtubeScraper.ts` lines 64-336, 361-365)

The external collaborators of one resolution are an environment:
the transcript-panel DOM read and the cleaned caption-track text (used by
`getTranscriptViaPlaywright`, lines 64-273), and the yt-dlp download plus
Whisper transcription (used by `getYouTubeTranscriptViaDownload`,
lines 276-336).  An `Except` error models a thrown exception. -/

/-- The names of the three acquisition strategies. -/
inductive Strat where
  | panel
  | captions
  | download
deriving DecidableEq, Repr

/-- Result of `videoDownloaderTool.execute`: the audio path and the `cleanup`
callback's outcome. -/
structure DownloadResult where
  audioPath : List Char
  fileSize : Nat
  cleanupOutcome : Except (List Char) Unit

/-- Collaborator behaviour for resolving one URL. -/
structure TranscriptEnv where
  /-- Segments collected from the in-page transcript panel, or a thrown
  browser/navigation error. -/
  panelSegments : Except (List Char) (List (List Char))
  /-- The caption-track text after fetch, parse, whitespace collapse and
  UI-word filtering, or a thrown fetch/parse error. -/
  captionsClean : Except (List Char) (List Char)
  /-- The `videoDownloaderTool.execute` outcome. -/
  downloadAudio : Except (List Char) DownloadResult
  /-- The `audioTranscriberTool.execute` outcome for a given audio path. -/
  transcribeAudio : List Char → Except (List Char) (List Char)

/-- Models the JavaScript array join with a single-space separator. -/
def joinSpaces (l : List (List Char)) : List Char :=
  List.intercalate [' '] l

/-- Function `getTranscriptViaPlaywright` (lines 64-273): panel extraction first; when
it yields no segments, caption-track extraction, whose internal `try/catch`
swallows errors; the caption text is kept only when longer than 50
characters; otherwise the empty string is returned.  A navigation failure
before that propagates (the function only has a `finally`, no `catch`).
This function is defined in the source but never called. -/
def getTranscriptViaPlaywright (env : TranscriptEnv) :
    Except (List Char) (List Char) × List Strat :=
  match env.panelSegments with
  | .error e => (.error e, [Strat.panel])
  | .ok segs =>
    let segs := segs.filter (fun t => !t.isEmpty)
    if segs.length > 0 then
      (.ok (joinSpaces segs), [Strat.panel])
    else
      match env.captionsClean with
      | .error _ => (.ok [], [Strat.panel, Strat.captions])
      | .ok t =>
        if t.length > 50 then (.ok t, [Strat.panel, Strat.captions])
        else (.ok [], [Strat.panel, Strat.captions])

/-- Function `getYouTubeTranscriptViaDownload` (lines 276-336): download, then
transcribe; the `catch` turns any error into the empty string; the `finally`
runs `cleanup` when the download succeeded, swallowing cleanup errors. -/
def getYouTubeTranscriptViaDownloadE (env : TranscriptEnv) :
    Except (List Char) (List Char) :=
  let body : Except (List Char) (List Char) :=
    match env.downloadAudio with
    | .error e => .error e
    | .ok d =>
      match env.transcribeAudio d.audioPath with
      | .error e => .error e
      | .ok text => .ok text
  let caught : Except (List Char) (List Char) :=
    match body with
    | .ok t => .ok t
    | .error _ => .ok []
  let cleanupRan : Except (List Char) Unit :=
    match env.downloadAudio with
    | .ok d =>
      match d.cleanupOutcome with
      | .ok _ => .ok ()
      | .error _ => .ok ()
    | .error _ => .ok ()
  match cleanupRan with
  | .ok _ => caught
  | .error e => .error e

/-- Holds when every step of the download strategy fails (total failure). -/
def downloadChainFails (env : TranscriptEnv) : Bool :=
  match env.downloadAudio with
  | .error _ => true
  | .ok d =>
    match env.transcribeAudio d.audioPath with
    | .error _ => true
    | .ok _ => false

/-- The download strategy as one attempt, with its attempt trace. -/
def runDownloadStrategy (env : TranscriptEnv) :
    Except (List Char) (List Char) × List Strat :=
  (getYouTubeTranscriptViaDownloadE env, [Strat.download])

/-- Transcript resolution as performed by `getYouTubeVideoData`
(`youtubeScraper.ts` lines 361-365): it invokes only
`getYouTubeTranscriptViaDownload`. -/
def resolveTranscript (env : TranscriptEnv) :
    Except (List Char) (List Char) × List Strat :=
  runDownloadStrategy env

/-! ## The Metadata Harvester's comment extraction
(`getYouTubeVideoData`, `youtubeScraper.ts` lines 448-461 and 478)

The DOM gives a list of `#content-text` nodes; each node's
`textContent?.trim()` is an optional string. -/

/-- The `page.evaluate` comment loop (lines 449-461): walk the first
`min(length, 50)` nodes and keep trimmed texts that are truthy and longer
than 10 characters. -/
def extractComments (texts : List (Option (List Char))) : List (List Char) :=
  (texts.take 50).filterMap (fun o =>
    match o with
    | some c => if !c.isEmpty && c.length > 10 then some c else none
    | none => none)

/-- The `comments` field of the result record (line 478):
`comments.slice(0, 50)`. -/
def finalComments (texts : List (Option (List Char))) : List (List Char) :=
  (extractComments texts).take 50

/-! ## Persist-stage truncation (`dataStorage.ts`, `saveAnalysisData`
lines 137-155; the file reached us unnamed as `src/unnamed/part_001`) -/

/-- The cap `MAX_RAW_ANALYSIS_SIZE = 262144` (256 KiB). -/
def MAX_RAW_ANALYSIS_SIZE : Nat := 262144

/-- The explicit truncation marker appended at line 146. -/
def truncationMarker : List Char := "...[truncated for database storage]".data

/-- Truncation of an oversized `rawAnalysis` text (lines 145-154). -/
def safeRawAnalysisOf (rawText : List Char) : List Char :=
  if rawText.length > MAX_RAW_ANALYSIS_SIZE then
    rawText.take (MAX_RAW_ANALYSIS_SIZE - 100) ++ truncationMarker
  else rawText

/-- The `rawAnalysis` value stored in `content_analysis` (lines 139-155,
183): `null` when the field is absent or empty (falsy), otherwise the
size-checked text. -/
def storedRawAnalysis (rawAnalysis : Option (List Char)) : Option (List Char) :=
  match rawAnalysis with
  | none => none
  | some rawText =>
    if rawText.isEmpty then none else some (safeRawAnalysisOf rawText)

/-! ## The Run Ledger's terminal transition
(`registerManualWorkflow` lines 64-83 and `registerCronWorkflow`
lines 219-238 of `src/mastra/inngest/index.ts`; both wrappers share the
same success-path pattern) -/

/-- Status column of `workflow_runs`. -/
inductive RunStatus where
  | running
  | completed
  | failed
deriving DecidableEq, Repr

/-- One `workflow_runs` row.  `defensiveInsert` models the
`source: 'defensive_insert'` metadata written only by the defensive
insert. -/
structure RunRow where
  runId : List Char
  status : RunStatus
  hasCompletedAt : Bool
  errorMessage : Option (List Char)
  defensiveInsert : Bool
deriving DecidableEq, Repr

/-- The success path of the trigger wrappers: `UPDATE workflow_runs SET
status = 'completed', completed_at = NOW() WHERE run_id = runId RETURNING
run_id`, and, when no row was returned, the defensive `INSERT` of a completed
row. -/
def markRunCompleted (rows : List RunRow) (runId : List Char) : List RunRow :=
  let updated := rows.map (fun r =>
    if r.runId == runId then
      { r with status := RunStatus.completed, hasCompletedAt := true }
    else r)
  let returned := rows.filter (fun r => r.runId == runId)
  if returned.length = 0 then
    updated ++ [{ runId := runId, status := RunStatus.completed,
                  hasCompletedAt := true, errorMessage := none,
                  defensiveInsert := true }]
  else updated

/-! ## Concrete instances used by witnesses and counterexamples -/

/-- An embed-form URL: parsed by the tracker, rejected by the scraper's
stricter regex. -/
def embedUrl : Url := "https://www.youtube.com/embed/dQw4w9WgXcQ".data

/-- A long-form URL for the same video. -/
def watchUrl : Url := "https://www.youtube.com/watch?v=dQw4w9WgXcQ".data

/-- A tracker index that already knows the video, recorded from its
embed-form URL. -/
def tracker0 : TrackerIndex :=
  [{ videoId := "dQw4w9WgXcQ".data, url := embedUrl, title := none,
     channelName := none, scrapedAt := 0, isAnalyzed := false,
     analysisFile := none }]

/-- A tracker index that already knows the video, recorded from its
long-form URL. -/
def tracker1 : TrackerIndex :=
  [{ videoId := "dQw4w9WgXcQ".data, url := watchUrl, title := none,
     channelName := none, scrapedAt := 0, isAnalyzed := false,
     analysisFile := none }]

/-- A resolver environment in which strategies 1 and 2 yield empty text and
strategy 3 yields `hello world`. -/
def env0 : TranscriptEnv :=
  { panelSegments := .ok [],
    captionsClean := .ok [],
    downloadAudio := .ok { audioPath := "/tmp/audio.m4a".data, fileSize := 1,
                           cleanupOutcome := .ok () },
    transcribeAudio := fun _ => .ok "hello world".data }

/-- A resolver environment in which every collaborator throws. -/
def envAllFail : TranscriptEnv :=
  { panelSegments := .error "nav error".data,
    captionsClean := .error "fetch error".data,
    downloadAudio := .error "yt-dlp error".data,
    transcribeAudio := fun _ => .error "whisper error".data }

/-- A 300 KiB analysis text. -/
def oversizedRaw : List Char := List.replicate 307200 'a'

/-- A ledger with one row for an unrelated run. -/
def ledger0 : List RunRow :=
  [{ runId := "cron-111-abc".data, status := RunStatus.running,
     hasCompletedAt := false, errorMessage := none,
     defensiveInsert := false }]

/-- The runId of a run whose row was never inserted. -/
def missingRunId : List Char := "manual-1760000000000".data

/-! ## Helper lemmas on the regex scan -/

theorem watchAlt_eq :
    watchAlt = ['y','o','u','t','u','b','e','.','c','o','m','/','w','a','t','c','h','?','v','='] :=
  rfl

theorem shortAlt_eq : shortAlt = ['y','o','u','t','u','.','b','e','/'] := rfl

/-- No alternative matches at a position whose head character differs from
every alternative's head character. -/
theorem firstCapture_none_head (cap : List Char → Option (List Char))
    (alts : List (List Char)) (c : Char) (cs : List Char)
    (h : (alts.all fun a => !a.isEmpty && decide (a.head? ≠ some c)) = true) :
    firstCapture cap alts (c :: cs) = none := by
  induction alts with
  | nil => rfl
  | cons a rest ih =>
    simp only [List.all_cons, Bool.and_eq_true] at h
    obtain ⟨⟨hne, hhd⟩, hrest⟩ := h
    rw [firstCapture]
    cases a with
    | nil => simp at hne
    | cons b bs =>
      have hb : b ≠ c := by
        simp only [decide_eq_true_eq, List.head?_cons] at hhd
        intro e; exact hhd (by rw [e])
      rw [if_neg ?_]
      · exact ih hrest
      · simp [List.isPrefixOf, hb]

/-- The scan moves past a position where no alternative can match. -/
theorem scanFor_skip (cap : List Char → Option (List Char))
    (alts : List (List Char)) (c : Char) (cs : List Char)
    (h : (alts.all fun a => !a.isEmpty && decide (a.head? ≠ some c)) = true) :
    scanFor cap alts (c :: cs) = scanFor cap alts cs := by
  rw [scanFor, firstCapture_none_head cap alts c cs h]

theorem isPrefixOf_append_self (a b : List Char) : a.isPrefixOf (a ++ b) = true := by
  induction a with
  | nil => simp [List.isPrefixOf]
  | cons x xs ih => simp [List.isPrefixOf, ih]

/-- The first alternative matches as soon as the remaining input starts with
it and its capture succeeds on what follows. -/
theorem firstCapture_here (cap : List Char → Option (List Char)) (a : List Char)
    (rest : List (List Char)) (s t : List Char) (hcap : cap s = some t) :
    firstCapture cap (a :: rest) (a ++ s) = some t := by
  rw [firstCapture, if_pos (isPrefixOf_append_self a s), List.drop_left, hcap]

/-- The scan of the tracker's first pattern succeeds at an occurrence of the
long-form marker. -/
theorem scanFor_hit_long (id t : List Char) (hcap : plusCapture id = some t) :
    scanFor plusCapture pat1 (watchAlt ++ id) = some t := by
  show scanFor plusCapture pat1 ('y' :: ("outube.com/watch?v=".data ++ id)) = some t
  rw [scanFor]
  have h' : firstCapture plusCapture pat1
      ('y' :: ("outube.com/watch?v=".data ++ id)) = some t :=
    firstCapture_here plusCapture watchAlt [shortAlt, embedAlt] id t hcap
  rw [h']

/-- The scan of the tracker's first pattern succeeds at an occurrence of the
short-form marker: the long-form alternative fails, the short-form
alternative matches. -/
theorem scanFor_hit_short (id t : List Char) (hcap : plusCapture id = some t) :
    scanFor plusCapture pat1 (shortAlt ++ id) = some t := by
  have hw : watchAlt.isPrefixOf (shortAlt ++ id) = false := by
    rw [watchAlt_eq, shortAlt_eq]
    simp +decide [List.cons_append, List.isPrefixOf]
  show scanFor plusCapture pat1 ('y' :: ("outu.be/".data ++ id)) = some t
  rw [scanFor]
  have h' : firstCapture plusCapture pat1 ('y' :: ("outu.be/".data ++ id)) = some t := by
    have step : firstCapture plusCapture pat1 (shortAlt ++ id) = some t := by
      rw [pat1, firstCapture, if_neg (by simp [hw])]
      exact firstCapture_here plusCapture shortAlt [embedAlt] id t hcap
    exact step
  rw [h']

/-- Scanning a whole long-form URL built from a capture-clean id. -/
theorem scanFor_long (id : List Char) (hne : id.isEmpty = false)
    (htw : id.takeWhile captureOk = id) :
    scanFor plusCapture pat1 ("https://www.youtube.com/watch?v=".data ++ id) = some id := by
  have hcap : plusCapture id = some id := by
    rw [plusCapture]; simp only [htw, hne]; rfl
  show scanFor plusCapture pat1
    ('h' :: 't' :: 't' :: 'p' :: 's' :: ':' :: '/' :: '/' :: 'w' :: 'w' :: 'w' :: '.' :: (watchAlt ++ id)) = some id
  rw [scanFor_skip plusCapture pat1 'h' _ (by decide)]
  rw [scanFor_skip plusCapture pat1 't' _ (by decide)]
  rw [scanFor_skip plusCapture pat1 't' _ (by decide)]
  rw [scanFor_skip plusCapture pat1 'p' _ (by decide)]
  rw [scanFor_skip plusCapture pat1 's' _ (by decide)]
  rw [scanFor_skip plusCapture pat1 ':' _ (by decide)]
  rw [scanFor_skip plusCapture pat1 '/' _ (by decide)]
  rw [scanFor_skip plusCapture pat1 '/' _ (by decide)]
  rw [scanFor_skip plusCapture pat1 'w' _ (by decide)]
  rw [scanFor_skip plusCapture pat1 'w' _ (by decide)]
  rw [scanFor_skip plusCapture pat1 'w' _ (by decide)]
  rw [scanFor_skip plusCapture pat1 '.' _ (by decide)]
  exact scanFor_hit_long id id hcap

/-- Scanning a whole short-form URL built from a capture-clean id. -/
theorem scanFor_short (id : List Char) (hne : id.isEmpty = false)
    (htw : id.takeWhile captureOk = id) :
    scanFor plusCapture pat1 ("https://youtu.be/".data ++ id) = some id := by
  have hcap : plusCapture id = some id := by
    rw [plusCapture]; simp only [htw, hne]; rfl
  show scanFor plusCapture pat1
    ('h' :: 't' :: 't' :: 'p' :: 's' :: ':' :: '/' :: '/' :: (shortAlt ++ id)) = some id
  rw [scanFor_skip plusCapture pat1 'h' _ (by decide)]
  rw [scanFor_skip plusCapture pat1 't' _ (by decide)]
  rw [scanFor_skip plusCapture pat1 't' _ (by decide)]
  rw [scanFor_skip plusCapture pat1 'p' _ (by decide)]
  rw [scanFor_skip plusCapture pat1 's' _ (by decide)]
  rw [scanFor_skip plusCapture pat1 ':' _ (by decide)]
  rw [scanFor_skip plusCapture pat1 '/' _ (by decide)]
  rw [scanFor_skip plusCapture pat1 '/' _ (by decide)]
  exact scanFor_hit_short id id hcap

/-- Every character of the scraper's id class is accepted by the tracker's
capture class. -/
theorem idChar_captureOk (c : Char) (h : idChar c = true) : captureOk c = true := by
  have h1 : c ≠ '&' := by rintro rfl; revert h; decide
  have h2 : c ≠ '\n' := by rintro rfl; revert h; decide
  have h3 : c ≠ '?' := by rintro rfl; revert h; decide
  have h4 : c ≠ '#' := by rintro rfl; revert h; decide
  simp [captureOk, h1, h2, h3, h4]

/-- C6: the tracker's identifier extraction yields the same identifier for the
long-form and the short-form URL of any 11-character source id. -/
theorem c6_long_short_same_identifier (id : List Char)
    (h11 : id.length = 11) (hall : id.all idChar = true) :
    extractVideoId (longFormUrl id) = some id ∧
    extractVideoId (shortFormUrl id) = some id := by
  have hcapAll : ∀ c ∈ id, captureOk c := fun c hc =>
    idChar_captureOk c (List.all_eq_true.mp hall c hc)
  have htw : id.takeWhile captureOk = id := List.takeWhile_eq_self_iff.mpr hcapAll
  have hne : id.isEmpty = false := by
    cases id with
    | nil => simp at h11
    | cons a l => rfl
  have h1 := scanFor_long id hne htw
  have h2 := scanFor_short id hne htw
  constructor
  · rw [longFormUrl, extractVideoId, h1]
  · rw [shortFormUrl, extractVideoId, h2]

/-- C6 witness: both URL shapes of the id `dQw4w9WgXcQ` extract to the same
identifier. -/
theorem c6_witness :
    extractVideoId (longFormUrl "dQw4w9WgXcQ".data) = some "dQw4w9WgXcQ".data ∧
    extractVideoId (shortFormUrl "dQw4w9WgXcQ".data) = some "dQw4w9WgXcQ".data :=
  c6_long_short_same_identifier "dQw4w9WgXcQ".data (by decide) (by decide)

/-! ## Persist-stage truncation -/

/-- C4: an oversized `rawAnalysis` text is stored truncated, at most 256 KiB
long, and ending in the explicit truncation marker, instead of failing the
write. -/
theorem c4_truncates_oversized_raw_analysis (raw : List Char)
    (h : raw.length > MAX_RAW_ANALYSIS_SIZE) :
    storedRawAnalysis (some raw) = some (safeRawAnalysisOf raw) ∧
    (safeRawAnalysisOf raw).length ≤ MAX_RAW_ANALYSIS_SIZE ∧
    truncationMarker <:+ safeRawAnalysisOf raw := by
  have hne : raw.isEmpty = false := by
    cases raw with
    | nil => simp [MAX_RAW_ANALYSIS_SIZE] at h
    | cons a l => rfl
  refine ⟨by rw [storedRawAnalysis, hne]; rfl, ?_, ?_⟩
  · rw [safeRawAnalysisOf, if_pos h]
    have h1 : (raw.take (MAX_RAW_ANALYSIS_SIZE - 100)).length
        ≤ MAX_RAW_ANALYSIS_SIZE - 100 := by
      rw [List.length_take]; omega
    have h2 : truncationMarker.length = 35 := by decide
    rw [List.length_append, h2]
    simp only [MAX_RAW_ANALYSIS_SIZE] at h1 ⊢
    omega
  · rw [safeRawAnalysisOf, if_pos h]
    exact List.suffix_append _ _

/-- C4 witness: a 300 KiB analysis text is stored at most 256 KiB long and
ends in the truncation marker. -/
theorem c4_witness :
    storedRawAnalysis (some oversizedRaw) = some (safeRawAnalysisOf oversizedRaw) ∧
    (safeRawAnalysisOf oversizedRaw).length ≤ MAX_RAW_ANALYSIS_SIZE ∧
    truncationMarker <:+ safeRawAnalysisOf oversizedRaw :=
  c4_truncates_oversized_raw_analysis oversizedRaw
    (by rw [oversizedRaw, List.length_replicate]; decide)

/-! ## Comment extraction bounds -/

/-- C9: the harvested comment list has at most 50 entries and no entry
shorter than 10 characters. -/
theorem c9_comment_bounds (texts : List (Option (List Char))) :
    (finalComments texts).length ≤ 50 ∧
    ∀ c ∈ finalComments texts, ¬(c.length < 10) := by
  constructor
  · rw [finalComments, List.length_take]; omega
  · intro c hc
    have hc' : c ∈ extractComments texts := List.mem_of_mem_take hc
    rw [extractComments] at hc'
    rcases List.mem_filterMap.mp hc' with ⟨o, -, ho⟩
    cases o with
    | none => simp at ho
    | some s =>
      have ho' : (if (!s.isEmpty && decide (s.length > 10)) = true
          then some s else none) = some c := ho
      by_cases hcond : (!s.isEmpty && decide (s.length > 10)) = true
      · rw [if_pos hcond] at ho'
        have hs : s = c := by injection ho'
        subst hs
        simp only [Bool.and_eq_true, decide_eq_true_eq] at hcond
        omega
      · rw [if_neg hcond] at ho'
        exact absurd ho' (by simp)

/-! ## Transcript resolution -/

/-- C1 counterexample: with strategies 1 and 2 yielding empty and strategy 3
yielding `hello world`, resolution does return `hello world`, but after
exactly one attempt — the download strategy — not after three attempts in
order.  The claimed three-strategy fallback chain exists only inside the
never-called `getTranscriptViaPlaywright`. -/
theorem c1_counterexample :
    (resolveTranscript env0).1 = Except.ok "hello world".data ∧
    (resolveTranscript env0).2 = [Strat.download] ∧
    (resolveTranscript env0).2 ≠ [Strat.panel, Strat.captions, Strat.download] :=
  ⟨rfl, rfl, by intro h; exact absurd ((rfl :
      (resolveTranscript env0).2 = [Strat.download]) ▸ h) (by decide)⟩

/-- C1 amended: resolution invokes only the download-and-transcribe
strategy; when strategies 1 and 2 would yield empty and the download path
yields `hello world`, resolution returns `hello world` after exactly one
attempt, and the panel and caption strategies are never attempted. -/
theorem c1_single_download_attempt (env : TranscriptEnv) (d : DownloadResult)
    (h1 : env.panelSegments = .ok [])
    (h2 : env.captionsClean = .ok [])
    (h3 : env.downloadAudio = .ok d)
    (h4 : env.transcribeAudio d.audioPath = .ok "hello world".data) :
    resolveTranscript env = (Except.ok "hello world".data, [Strat.download]) ∧
    Strat.panel ∉ (resolveTranscript env).2 ∧
    Strat.captions ∉ (resolveTranscript env).2 := by
  have hdl : getYouTubeTranscriptViaDownloadE env = .ok "hello world".data := by
    rw [getYouTubeTranscriptViaDownloadE]
    simp only [h3, h4]
    cases d.cleanupOutcome <;> rfl
  refine ⟨?_, ?_, ?_⟩
  · rw [resolveTranscript, runDownloadStrategy, hdl]
  · rw [resolveTranscript, runDownloadStrategy]
    show Strat.panel ∉ [Strat.download]
    decide
  · rw [resolveTranscript, runDownloadStrategy]
    show Strat.captions ∉ [Strat.download]
    decide

/-- C1 witness for the amended claim, at the concrete environment of the
counterexample scenario. -/
theorem c1_witness :
    resolveTranscript env0 = (Except.ok "hello world".data, [Strat.download]) ∧
    Strat.panel ∉ (resolveTranscript env0).2 ∧
    Strat.captions ∉ (resolveTranscript env0).2 :=
  c1_single_download_attempt env0
    { audioPath := "/tmp/audio.m4a".data, fileSize := 1, cleanupOutcome := .ok () }
    rfl rfl rfl rfl

/-- C2: for every collaborator behaviour, transcript resolution does not
throw — it returns `Except.ok` with some string — and when every step of the
download chain fails the returned string is empty. -/
theorem c2_resolution_never_throws (env : TranscriptEnv) :
    ∃ s, getYouTubeTranscriptViaDownloadE env = Except.ok s ∧
      (downloadChainFails env = true → s = []) := by
  rcases hd : env.downloadAudio with e | d
  · refine ⟨[], ?_, fun _ => rfl⟩
    rw [getYouTubeTranscriptViaDownloadE]
    simp only [hd]
  · rcases ht : env.transcribeAudio d.audioPath with e | text
    · refine ⟨[], ?_, fun _ => rfl⟩
      rw [getYouTubeTranscriptViaDownloadE]
      simp only [hd, ht]
      cases d.cleanupOutcome <;> rfl
    · refine ⟨text, ?_, ?_⟩
      · rw [getYouTubeTranscriptViaDownloadE]
        simp only [hd, ht]
        cases d.cleanupOutcome <;> rfl
      · intro hf
        rw [downloadChainFails] at hf
        simp only [hd, ht] at hf
        exact absurd hf (by decide)

/-- C2 witness: resolution at an environment in which every collaborator
throws still returns `ok` with the empty string. -/
theorem c2_witness :
    ∃ s, getYouTubeTranscriptViaDownloadE envAllFail = Except.ok s ∧
      (downloadChainFails envAllFail = true → s = []) :=
  c2_resolution_never_throws envAllFail

/-! ## Run Ledger defensive insert -/

/-- C5: when the run's row is missing at terminal-transition time, the
success path of the trigger wrapper ends with exactly one completed row for
that runId, and the defensive insert fired exactly once. -/
theorem c5_defensive_insert_exactly_once (rows : List RunRow) (runId : List Char)
    (h : ∀ r ∈ rows, r.runId ≠ runId) :
    ((markRunCompleted rows runId).filter
      (fun r => r.runId == runId && r.status == RunStatus.completed)).length = 1 ∧
    ((markRunCompleted rows runId).filter
      (fun r => r.runId == runId && r.defensiveInsert)).length = 1 := by
  have hret : (rows.filter (fun r => r.runId == runId)) = [] := by
    apply List.filter_eq_nil_iff.mpr
    intro r hr
    simp only [beq_iff_eq]
    exact h r hr
  have hupd : rows.map (fun r =>
      if r.runId == runId then
        { r with status := RunStatus.completed, hasCompletedAt := true }
      else r) = rows := by
    have := List.map_congr_left (l := rows)
      (f := fun r => if r.runId == runId then
        { r with status := RunStatus.completed, hasCompletedAt := true } else r)
      (g := id) (fun r hr => by
        simp only [id]
        rw [if_neg]
        simp only [beq_iff_eq]
        exact h r hr)
    rw [this, List.map_id]
  have hold : ∀ (p : RunRow → Bool),
      (∀ r, p r = true → r.runId = runId) → rows.filter p = [] := by
    intro p hp
    apply List.filter_eq_nil_iff.mpr
    intro r hr hpr
    exact h r hr (hp r hpr)
  rw [markRunCompleted]
  rw [hret]
  simp only [List.length_nil]
  rw [if_pos trivial, hupd]
  constructor
  · rw [List.filter_append,
      hold _ (fun r hr => by
        simp only [Bool.and_eq_true, beq_iff_eq] at hr
        exact hr.1)]
    simp
  · rw [List.filter_append,
      hold _ (fun r hr => by
        simp only [Bool.and_eq_true, beq_iff_eq] at hr
        exact hr.1)]
    simp

/-- C5 witness: a ledger holding only an unrelated run's row ends with
exactly one completed row and exactly one defensive insert for the missing
runId. -/
theorem c5_witness :
    ((markRunCompleted ledger0 missingRunId).filter
      (fun r => r.runId == missingRunId && r.status == RunStatus.completed)).length = 1 ∧
    ((markRunCompleted ledger0 missingRunId).filter
      (fun r => r.runId == missingRunId && r.defensiveInsert)).length = 1 :=
  c5_defensive_insert_exactly_once ledger0 missingRunId (by decide)

/-! ## Duplicate Tracker round trip and index invariant -/

/-- Function `checkItemFor` reports back the URL it was asked about. -/
theorem checkItemFor_url (videos : TrackerIndex) (url : Url) :
    (checkItemFor videos url).url = url := by
  rw [checkItemFor]
  split
  · split <;> rfl
  · rfl

/-- After an upsert, some record carries the upserted identifier. -/
theorem upsert_mem_id (r : VideoRecord) (l : TrackerIndex) :
    ∃ v ∈ upsertRecord r l, v.videoId = r.videoId := by
  induction l with
  | nil => exact ⟨r, by rw [upsertRecord]; exact List.mem_singleton.mpr rfl, rfl⟩
  | cons v vs ih =>
    by_cases hv : (v.videoId == r.videoId) = true
    · refine ⟨{ r with analysisFile := v.analysisFile }, ?_, rfl⟩
      rw [upsertRecord, if_pos hv]
      exact List.mem_cons_self _ _
    · obtain ⟨w, hw, hid⟩ := ih
      refine ⟨w, ?_, hid⟩
      rw [upsertRecord, if_neg hv]
      exact List.mem_cons_of_mem _ hw

/-- C7: after a successful `track(entry)`, `check([entry.url])` reports the
URL as a duplicate, provided the entry's recorded identifier is the one
extracted from its URL. -/
theorem c7_track_then_check_roundtrip (videos : TrackerIndex) (inp : TrackInput)
    (h : extractVideoId inp.url = some inp.videoId) :
    inp.url ∈ duplicateUrls (trackStep videos inp) [inp.url] := by
  have hex : (checkItemFor (trackStep videos inp) inp.url).existsInIndex = true := by
    simp only [checkItemFor, h]
    obtain ⟨v, hv, hid⟩ := upsert_mem_id (mkRecord inp) videos
    have hsome : ((trackStep videos inp).find?
        (fun v => v.videoId == inp.videoId)).isSome := by
      rw [List.find?_isSome]
      exact ⟨v, hv, by simp [beq_iff_eq, hid, mkRecord]⟩
    rcases hfind : (trackStep videos inp).find? (fun v => v.videoId == inp.videoId)
        with _ | w
    · rw [hfind] at hsome; exact absurd hsome (by simp)
    · rw [hfind]
  rw [duplicateUrls, checkDuplicates]
  simp only [List.map_cons, List.map_nil, List.filter_cons, hex, if_pos]
  rw [checkItemFor_url]
  exact List.mem_cons_self _ _

/-- C7 witness: tracking the video from its long-form URL makes a subsequent
check flag that URL as duplicate. -/
theorem c7_witness :
    watchUrl ∈ duplicateUrls (trackStep []
      { videoId := "dQw4w9WgXcQ".data, url := watchUrl, title := none,
        channelName := none, now := 0 })
      [watchUrl] :=
  c7_track_then_check_roundtrip []
    { videoId := "dQw4w9WgXcQ".data, url := watchUrl, title := none,
      channelName := none, now := 0 }
    (by decide)

/-- Identifiers present after an upsert: the upserted one, or one already
present. -/
theorem mem_map_videoId_upsert {x : List Char} {r : VideoRecord}
    {l : TrackerIndex}
    (hx : x ∈ (upsertRecord r l).map (·.videoId)) :
    x = r.videoId ∨ x ∈ l.map (·.videoId) := by
  induction l with
  | nil =>
    rw [upsertRecord] at hx
    simp only [List.map_cons, List.map_nil, List.mem_singleton] at hx
    exact Or.inl hx
  | cons v vs ih =>
    by_cases hv : (v.videoId == r.videoId) = true
    · rw [upsertRecord, if_pos hv] at hx
      simp only [List.map_cons, List.mem_cons] at hx
      rcases hx with h1 | h2
      · exact Or.inl h1
      · exact Or.inr (by simp only [List.map_cons, List.mem_cons]; exact Or.inr h2)
    · rw [upsertRecord, if_neg hv] at hx
      simp only [List.map_cons, List.mem_cons] at hx
      rcases hx with h1 | h2
      · exact Or.inr (by simp only [List.map_cons, List.mem_cons]; exact Or.inl h1)
      · rcases ih h2 with h3 | h4
        · exact Or.inl h3
        · exact Or.inr (by simp only [List.map_cons, List.mem_cons]; exact Or.inr h4)

/-- One upsert preserves the at-most-one-record-per-identifier invariant. -/
theorem nodup_upsert (r : VideoRecord) (l : TrackerIndex)
    (h : (l.map (·.videoId)).Nodup) :
    ((upsertRecord r l).map (·.videoId)).Nodup := by
  induction l with
  | nil => rw [upsertRecord]; simp
  | cons v vs ih =>
    rw [List.map_cons, List.nodup_cons] at h
    obtain ⟨hnin, hnd⟩ := h
    by_cases hv : (v.videoId == r.videoId) = true
    · rw [upsertRecord, if_pos hv, List.map_cons, List.nodup_cons]
      have hvr : v.videoId = r.videoId := by simpa [beq_iff_eq] using hv
      exact ⟨by rw [show ({ r with analysisFile := v.analysisFile } :
        VideoRecord).videoId = v.videoId from hvr.symm]; exact hnin, hnd⟩
    · rw [upsertRecord, if_neg hv, List.map_cons, List.nodup_cons]
      refine ⟨?_, ih hnd⟩
      intro hmem
      rcases mem_map_videoId_upsert hmem with h1 | h2
      · exact hv (by simp [beq_iff_eq, h1])
      · exact hnin h2

/-- C8: from an index with no duplicate identifiers, any sequence of `track`
calls leaves the index with at most one record per identifier. -/
theorem c8_index_nodup_invariant (ops : List TrackInput) (init : TrackerIndex)
    (h : (init.map (·.videoId)).Nodup) :
    ((ops.foldl trackStep init).map (·.videoId)).Nodup := by
  induction ops generalizing init with
  | nil => simpa using h
  | cons op ops ih =>
    rw [List.foldl_cons]
    exact ih _ (nodup_upsert _ _ h)

/-- C8 witness: tracking the same identifier twice from the empty index
leaves one record per identifier. -/
theorem c8_witness :
    ((([{ videoId := "dQw4w9WgXcQ".data, url := watchUrl, title := none,
          channelName := none, now := 1 },
        { videoId := "dQw4w9WgXcQ".data, url := embedUrl, title := none,
          channelName := none, now := 2 }] : List TrackInput).foldl
        trackStep []).map (·.videoId)).Nodup :=
  c8_index_nodup_invariant _ [] (by simp)

/-! ## Reconciliation between the tracker and storage -/

/-- A URL reported in `duplicateUrls` is one of the inputs, and its check
item says it exists in the index. -/
theorem of_mem_duplicateUrls {videos : TrackerIndex} {urls : List Url} {url : Url}
    (h : url ∈ duplicateUrls videos urls) :
    url ∈ urls ∧ (checkItemFor videos url).existsInIndex = true := by
  rw [duplicateUrls, checkDuplicates] at h
  rcases List.mem_map.mp h with ⟨item, hitem, hurl⟩
  rcases List.mem_filter.mp hitem with ⟨hmem, hex⟩
  rcases List.mem_map.mp hmem with ⟨u, hu, heq⟩
  have hueq : u = url := by rw [← hurl, ← heq, checkItemFor_url]
  subst hueq
  subst heq
  exact ⟨hu, hex⟩

/-- A URL reported in `newUrls` has a check item saying it is not in the
index. -/
theorem of_mem_newUrls {videos : TrackerIndex} {urls : List Url} {url : Url}
    (h : url ∈ newUrls videos urls) :
    (checkItemFor videos url).existsInIndex = false := by
  rw [newUrls, checkDuplicates] at h
  rcases List.mem_map.mp h with ⟨item, hitem, hurl⟩
  rcases List.mem_filter.mp hitem with ⟨hmem, hflag⟩
  rcases List.mem_map.mp hmem with ⟨u, hu, heq⟩
  have hueq : u = url := by rw [← hurl, ← heq, checkItemFor_url]
  subst hueq
  subst heq
  simp only [Bool.and_eq_true, Bool.not_eq_true'] at hflag
  exact hflag.1

/-- C3 counterexample: the embed-form URL is flagged duplicate by the
tracker, its identifier is absent from storage, and yet reconciliation does
not move it back into the set of URLs to scrape. -/
theorem c3_counterexample :
    embedUrl ∈ duplicateUrls tracker0 [embedUrl] ∧
    extractVideoId embedUrl = some "dQw4w9WgXcQ".data ∧
    "dQw4w9WgXcQ".data ∉ ([] : List (List Char)) ∧
    embedUrl ∉ finalVideosToScrape tracker0 [] [embedUrl] := by decide

/-- C3 amended: reconciliation moves a tracker-flagged duplicate back into
the to-process set whenever the coordinator's stricter watch/short-form
regex parses the URL and the strictly-extracted identifier is not in the
storage collaborator's videos table. -/
theorem c3_reconciliation_readds (videos : TrackerIndex)
    (dbIds : List (List Char)) (urls : List Url) (url : Url) (vid : List Char)
    (hdup : url ∈ duplicateUrls videos urls)
    (hstrict : strictExtract url = some vid)
    (hnot : vid ∉ dbIds) :
    url ∈ finalVideosToScrape videos dbIds urls := by
  have hre : url ∈ videosToReAdd dbIds (duplicateUrls videos urls) := by
    apply List.mem_filter.mpr
    refine ⟨hdup, ?_⟩
    simp only [hstrict]
    have hnotex : vid ∉ existingVideoIds dbIds (duplicateUrls videos urls) := by
      intro hm
      exact hnot (List.mem_filter.mp hm).1
    simpa [List.contains] using hnotex
  have hlen : (duplicateUrls videos urls).length > 0 :=
    List.length_pos.mpr (List.ne_nil_of_mem hdup)
  have hrelen : (videosToReAdd dbIds (duplicateUrls videos urls)).length > 0 :=
    List.length_pos.mpr (List.ne_nil_of_mem hre)
  rw [finalVideosToScrape]
  simp only [hlen, hrelen, if_pos]
  exact List.mem_append_right _ hre

/-- C3 witness: a long-form URL flagged duplicate whose id is missing from
storage is re-added to the scrape list. -/
theorem c3_witness : watchUrl ∈ finalVideosToScrape tracker1 [] [watchUrl] :=
  c3_reconciliation_readds tracker1 [] [watchUrl] watchUrl "dQw4w9WgXcQ".data
    (by decide) (by decide) (by decide)

/-- C10: a URL the tracker parses but the coordinator's stricter regex does
not, once flagged duplicate, is never moved back into the to-process set,
whatever the storage contents. -/
theorem c10_strict_regex_gap (videos : TrackerIndex) (dbIds : List (List Char))
    (urls : List Url) (url : Url) (t : List Char)
    (hparse : extractVideoId url = some t)
    (hstrict : strictExtract url = none)
    (hdup : url ∈ duplicateUrls videos urls) :
    url ∉ finalVideosToScrape videos dbIds urls := by
  intro hmem
  have hex := (of_mem_duplicateUrls hdup).2
  have hnotre : url ∉ videosToReAdd dbIds (duplicateUrls videos urls) := by
    intro hr
    have := (List.mem_filter.mp hr).2
    rw [hstrict] at this
    exact absurd this (by simp)
  have hnotnew : url ∉ newUrls videos urls := by
    intro hn
    rw [of_mem_newUrls hn] at hex
    exact absurd hex (by simp)
  have hlen : (duplicateUrls videos urls).length > 0 :=
    List.length_pos.mpr (List.ne_nil_of_mem hdup)
  rw [finalVideosToScrape] at hmem
  simp only [hlen, if_pos] at hmem
  by_cases hrelen : (videosToReAdd dbIds (duplicateUrls videos urls)).length > 0
  · rw [if_pos hrelen] at hmem
    rcases List.mem_append.mp hmem with hn | hr
    · exact hnotnew hn
    · exact hnotre hr
  · rw [if_neg hrelen] at hmem
    exact hnotnew hmem

/-- C10 witness: the embed-form URL, flagged duplicate, stays out of the
scrape list even though its identifier is absent from storage. -/
theorem c10_witness : embedUrl ∉ finalVideosToScrape tracker0 [] [embedUrl] :=
  c10_strict_regex_gap tracker0 [] [embedUrl] embedUrl "dQw4w9WgXcQ".data
    (by decide) (by decide) (by decide)

end YtAuto
